import Mathlib

/-!
Verification development for `internal/component/input/async_preserver.go`
(the `AsyncPreserver` delivery-guarantee decorator).

The Go file is embedded shallowly:

* `message.Batch` is a list of parts.  A part carries an opaque content value
  plus an optional sort-group tag; the `internal/message` package itself is not
  part of the sources, so parts, `ShallowCopy`, `NewSortGroup` and
  `SortGroup.GetIndex` are modelled from the spec (sections 3 and 6: tracking
  facility, shallow structural copies sharing part contents).
* Errors are an inductive type; `component.ErrTypeClosed`, `component.ErrTimeout`
  and `ctx.Err()` become distinguished constructors.
* The mutable `AsyncPreserver` struct becomes an explicit state record, and each
  Go method becomes a pure function from the state (plus the observations made
  of the environment: the wrapped source's results, whether the caller's scope
  was cancelled during a sleep, and what each iteration of the drain poll loop
  observed) to the new state and result.
* The wrapped acknowledgment closures become `wrappedSingleAck` /
  `wrappedBatchAck`: functions of the captured resend record and the result the
  caller passes in, returning the new decorator state, the returned error and
  the list of invocations of the original callback.
-/

/-- One part of a message batch, mirroring `message.Part`.  Modelled from the
spec: part contents are opaque
and shared by reference between shallow copies; `tag` is the sort-group
tracking metadata that the tracking facility uses to map a part back to its
original position (`none` when the part can no longer be linked back). -/
structure MsgPart where
  content : Nat
  tag : Option Nat
deriving DecidableEq, Repr

/-- Batch of parts, mirroring `message.Batch` (an ordered sequence of parts). -/
abbrev Batch := List MsgPart

/-- Modelled from the spec: the part handed back when a lookup falls outside the
batch (the `internal/message` accessor is not part of the sources). -/
def defaultPart : MsgPart := ⟨0, none⟩

/-- Modelled from the spec: `Batch.ShallowCopy` makes a structural copy of the
sequence container; the parts themselves are shared, not duplicated. -/
def Batch.shallowCopy (b : Batch) : Batch := List.map (fun q => q) b

/-- Helper for `newSortGroup`: tag the parts of a batch with consecutive
original indices starting at `i`. -/
def tagFrom (i : Nat) : Batch → Batch
  | [] => []
  | q :: qs => { q with tag := some i } :: tagFrom (i + 1) qs

/-- Modelled from the spec: `message.NewSortGroup` produces taggable copies of
the parts of a batch, each remembering its original position; part contents are
shared. -/
def newSortGroup (b : Batch) : Batch := tagFrom 0 b

/-- Modelled from the spec: the sort group's lookup `GetIndex`, returning the
original index of a tracked part, or a negative value when the part cannot be
linked back to an original message. -/
def getIndex (q : MsgPart) : Int :=
  match q.tag with
  | some j => (j : Int)
  | none => -1

/-- Error values that flow through the decorator.  `typeClosed` is
`component.ErrTypeClosed`, `timeout` is `component.ErrTimeout`, `canceled` is
the result of `ctx.Err()` on a cancelled context, and `other` covers every
remaining error a source may return. -/
inductive Err where
  | typeClosed
  | timeout
  | canceled
  | other (code : Nat)
deriving DecidableEq, Repr

/-- Original asynchronous acknowledgment callback (`input.AsyncAckFn`): takes
the result being acknowledged (`none` for success) and returns an error. -/
abbrev AckFn := Option Err → Option Err

/-- Structured per-part error, mirroring `batch.WalkableError`: a count of
indexed (per-part) errors and the traversal data `WalkParts` yields, in walk
order: each part together with its error-or-none. -/
structure WalkableErr where
  parts : List (MsgPart × Option Err)
  indexedErrors : Nat
deriving DecidableEq, Repr

/-- Result value passed into a wrapped acknowledgment callback: Go's `res error`
argument, which is `nil` (success), a plain error, or a `batch.WalkableError`. -/
inductive AckResult where
  | ok
  | plainErr (e : Err)
  | walkableErr (we : WalkableErr)
deriving DecidableEq, Repr

/-- Backoff initial interval set by `newResendMsg`: `time.Millisecond`
(measured here in milliseconds). -/
def initialIntervalMs : ℚ := 1

/-- Backoff interval ceiling set by `newResendMsg`: `time.Second`. -/
def maxIntervalMs : ℚ := 1000

/-- Backoff growth factor set by `newResendMsg`: `boff.Multiplier = 1.1`. -/
def backoffMultiplier : ℚ := 11 / 10

/-- Backoff total elapsed-time cap set by `newResendMsg`:
`boff.MaxElapsedTime = 0`, meaning the cap is disabled and the backoff never
stops on time grounds. -/
def maxElapsedTimeMs : ℚ := 0

/-- Modelled from the spec: the backoff policy's `next(state) -> delay, state'`
contract (the `cenkalti/backoff` implementation is an external collaborator).
The delay is the current interval; the interval then grows by the configured
factor up to the configured ceiling.  Because `maxElapsedTimeMs = 0`, no stop
sentinel is ever produced. -/
def nextBackOff (cur : ℚ) : ℚ × ℚ :=
  (cur, min (cur * backoffMultiplier) maxIntervalMs)

/-- Record of an unacknowledged batch awaiting retry, mirroring
`asyncPreserverResend`: backoff state, attempt count, payload, original
callback. -/
structure asyncPreserverResend where
  boffCurrent : ℚ
  attempts : Nat
  msg : Batch
  ackFn : AckFn

/-- Mirror of `newResendMsg`: a fresh resend record with the configured backoff
and zero attempts. -/
def newResendMsg (msg : Batch) (ackFn : AckFn) : asyncPreserverResend :=
  { boffCurrent := initialIntervalMs, attempts := 0, msg := msg, ackFn := ackFn }

/-- State of the decorator, mirroring the mutable fields of `AsyncPreserver`:
the resend queue, the in-flight counter `pendingMessages` (an `int64`), and the
`inputClosed` flag. -/
structure AsyncPreserver where
  resendMessages : List asyncPreserverResend
  pendingMessages : Int
  inputClosed : Bool

/-- Mirror of `NewAsyncPreserver`: empty queue, zero in-flight, source open. -/
def NewAsyncPreserver : AsyncPreserver :=
  { resendMessages := [], pendingMessages := 0, inputClosed := false }

/-- Mirror of `AsyncPreserver.Connect`, with the wrapped source's `Connect`
result supplied as `srcErr` (`none` for success): the `ErrTypeClosed` error is
suppressed and `inputClosed` set when messages are still in flight; every other
result is passed through unchanged. -/
def AsyncPreserver.Connect (p : AsyncPreserver) (srcErr : Option Err) :
    AsyncPreserver × Option Err :=
  if srcErr = some Err.typeClosed ∧ 0 < p.pendingMessages then
    ({ p with inputClosed := true }, none)
  else
    (p, srcErr)

/-- Embedding of the `WalkParts` closure inside `wrapBatchAckFn`: fold over the
walked parts carrying the accumulated `resendMsg`.  Parts without an error are
skipped; an errored part that the sort group can link back contributes the
original part at that index; an errored part that cannot be linked back makes
the walk stop with the whole original batch. -/
def walkResend (orig : Batch) : List (MsgPart × Option Err) → Batch → Batch
  | [], acc => acc
  | (q, e) :: rest, acc =>
    match e with
    | none => walkResend orig rest acc
    | some _ =>
      if 0 ≤ getIndex q then
        walkResend orig rest (acc ++ [orig.getD (getIndex q).toNat defaultPart])
      else
        orig

/-- Computation of `resendMsg` in the failure branch of `wrapBatchAckFn`: a
walkable error with fewer indexed errors than parts triggers the walk (with the
empty-result fallback to the whole batch); anything else retries the whole
batch. -/
def batchAckResend (m : asyncPreserverResend) (res : AckResult) : Batch :=
  match res with
  | AckResult.walkableErr we =>
    if we.indexedErrors < m.msg.length then
      let r := walkResend m.msg we.parts []
      if r.length = 0 then m.msg else r
    else
      m.msg
  | _ => m.msg

/-- Observable effect of invoking a wrapped acknowledgment callback: the new
decorator state, the error returned to the invoker, and the invocations of the
original callback (each with the result it was passed). -/
structure AckEffect where
  state : AsyncPreserver
  ret : Option Err
  origCalls : List (Option Err)

/-- Embedding of the callback returned by `wrapBatchAckFn`: on a non-nil result
the resend record (with the computed resend subset) is appended to the queue
and `nil` is returned without touching the original callback; on success the
in-flight counter is decremented and the original callback is invoked with the
success result, its outcome returned. -/
def AsyncPreserver.wrappedBatchAck (p : AsyncPreserver)
    (m : asyncPreserverResend) (res : AckResult) : AckEffect :=
  if res ≠ AckResult.ok then
    { state := { p with
        resendMessages := p.resendMessages ++ [{ m with msg := batchAckResend m res }] },
      ret := none, origCalls := [] }
  else
    { state := { p with pendingMessages := p.pendingMessages - 1 },
      ret := m.ackFn none, origCalls := [none] }

/-- Embedding of the callback returned by `wrapSingleAckFn`: on a non-nil result
the resend record is appended to the queue unchanged and `nil` is returned; on
success the in-flight counter is decremented and the original callback invoked
with the success result. -/
def AsyncPreserver.wrappedSingleAck (p : AsyncPreserver)
    (m : asyncPreserverResend) (res : AckResult) : AckEffect :=
  if res ≠ AckResult.ok then
    { state := { p with resendMessages := p.resendMessages ++ [m] },
      ret := none, origCalls := [] }
  else
    { state := { p with pendingMessages := p.pendingMessages - 1 },
      ret := m.ackFn none, origCalls := [none] }

/-- Mirror of the dispatch in `wrapAckFn`: single-part batches get the single
wrapper, everything else the batch wrapper. -/
def AsyncPreserver.wrappedAck (p : AsyncPreserver)
    (m : asyncPreserverResend) (res : AckResult) : AckEffect :=
  if m.msg.length = 1 then p.wrappedSingleAck m res else p.wrappedBatchAck m res

/-- Batch handed to the caller by `wrapAckFn` (before the shallow copy): the
batch itself for a single part, the sort-group tracked copies otherwise. -/
def wrapAckMsg (m : asyncPreserverResend) : Batch :=
  if m.msg.length = 1 then m.msg else newSortGroup m.msg

/-- Reason the derived read context was cancelled: by the caller itself, or by
the `resendInterrupt` handle fired from a concurrent failure enqueue. -/
inductive CancelCause where
  | callerCancelled
  | interruptFired
deriving DecidableEq, Repr

/-- Observation made by one iteration of the drain poll loop's `select`: either
the derived context's `Done` channel fired (with the cause of cancellation), or
the 10 ms timer fired and the in-flight counter was read. -/
inductive PollEvent where
  | ctxDone (cause : CancelCause)
  | tick (pending : Int)
deriving DecidableEq, Repr

/-- Polling interval of the drain loop, in milliseconds:
`time.After(time.Millisecond * 10)`. -/
def pollIntervalMs : Nat := 10

/-- Embedding of the drain poll loop in `ReadBatch` (one `PollEvent` per
iteration, each `tick` spaced `pollIntervalMs` apart): a fired `Done` channel
returns `ErrTimeout` whatever the cause; a tick observing a non-positive
in-flight counter returns `ErrTypeClosed`; otherwise the loop continues.
`none` means the supplied observations ran out with the loop still spinning. -/
def drainLoop : List PollEvent → Option Err
  | [] => none
  | PollEvent.ctxDone _ :: _ => some Err.timeout
  | PollEvent.tick n :: rest => if n ≤ 0 then some Err.typeClosed else drainLoop rest

/-- Environment observations consumed by one `ReadBatch` call: the wrapped
source's `ReadBatch` outcome (consulted only if the decorator gets that far),
whether the derived context was cancelled during the backoff sleep, and the
drain poll loop's observations. -/
structure ReadEnv where
  sourceResult : Except Err (Batch × AckFn)
  sleepInterrupted : Bool
  pollEvents : List PollEvent

/-- Result of a `ReadBatch` call: either a delivered batch (with the induced
backoff delay actually slept, in milliseconds, the batch handed to the caller,
and the resend record captured by the wrapped callback), or an error. -/
inductive ReadResult where
  | delivered (sleptMs : ℚ) (sendMsg : Batch) (entry : asyncPreserverResend)
  | failed (e : Err)

/-- Mirror of `AsyncPreserver.ReadBatch`.  A queued resend is prioritised: the
front entry is popped, its attempt count incremented, and past the second
attempt the backoff delay is slept (abandoned with `ctx.Err()` if the scope
ends first); the entry is then rewrapped and a shallow copy delivered.  With an
empty queue, the source is consulted (or `ErrTypeClosed` synthesized when
`inputClosed` is set); a closed error with messages in flight enters the drain
poll loop; a successful fresh read increments the in-flight counter and is
wrapped and delivered.  `none` arises only when the drain loop's observations
run out. -/
def AsyncPreserver.ReadBatch (p : AsyncPreserver) (env : ReadEnv) :
    Option (AsyncPreserver × ReadResult) :=
  match p.resendMessages with
  | resend :: rest =>
    let p1 : AsyncPreserver := { p with resendMessages := rest }
    let r1 : asyncPreserverResend := { resend with attempts := resend.attempts + 1 }
    if 2 < r1.attempts then
      let tb := nextBackOff r1.boffCurrent
      let r2 : asyncPreserverResend := { r1 with boffCurrent := tb.2 }
      if 0 < tb.1 then
        if env.sleepInterrupted then
          some (p1, ReadResult.failed Err.canceled)
        else
          some (p1, ReadResult.delivered tb.1 (wrapAckMsg r2).shallowCopy r2)
      else
        some (p1, ReadResult.delivered 0 (wrapAckMsg r2).shallowCopy r2)
    else
      some (p1, ReadResult.delivered 0 (wrapAckMsg r1).shallowCopy r1)
  | [] =>
    match (if p.inputClosed then Except.error Err.typeClosed else env.sourceResult :
        Except Err (Batch × AckFn)) with
    | Except.error e =>
      if e = Err.typeClosed ∧ 0 < p.pendingMessages then
        (drainLoop env.pollEvents).map (fun e2 => (p, ReadResult.failed e2))
      else
        some (p, ReadResult.failed e)
    | Except.ok ma =>
      let m := newResendMsg ma.1 ma.2
      some ({ p with pendingMessages := p.pendingMessages + 1 },
        ReadResult.delivered 0 (wrapAckMsg m).shallowCopy m)

/-- Mirror of `AsyncPreserver.Close`: delegate to the wrapped source's `Close`
(its result supplied as `srcRes`) and return that result, touching nothing. -/
def AsyncPreserver.Close (p : AsyncPreserver) (srcRes : Option Err) :
    AsyncPreserver × Option Err :=
  (p, srcRes)

/-- Ghost configuration for reasoning about executions: the decorator state plus
the outstanding deliveries (resend records captured by wrapped callbacks that
the caller has been handed and has not yet invoked). -/
structure Config where
  state : AsyncPreserver
  outstanding : List asyncPreserverResend

/-- Events of an execution: one `ReadBatch` call (with its environment
observations), or the invocation of the wrapped callback of outstanding
delivery `k` with result `res`.  Each wrapped callback is invoked exactly once
(spec, section 3: `CompletionCallback`). -/
inductive Event where
  | read (env : ReadEnv)
  | ack (k : Nat) (res : AckResult)

/-- One execution step.  A read that delivers appends the captured resend record
to the outstanding deliveries; an acknowledgment consumes outstanding delivery
`k` and applies its wrapped callback.  `none` means the event is not enabled
(no such outstanding delivery, or the read blocked in the drain loop). -/
def step (c : Config) (e : Event) : Option Config :=
  match e with
  | Event.read env =>
    match c.state.ReadBatch env with
    | some (s1, ReadResult.delivered _ _ m) => some ⟨s1, c.outstanding ++ [m]⟩
    | some (s1, ReadResult.failed _) => some ⟨s1, c.outstanding⟩
    | none => none
  | Event.ack k res =>
    match c.outstanding.get? k with
    | some m => some ⟨(c.state.wrappedAck m res).state, c.outstanding.eraseIdx k⟩
    | none => none

/-- Initial configuration: a fresh decorator, nothing outstanding. -/
def initConfig : Config := ⟨NewAsyncPreserver, []⟩

/-- Reachability under `step` from the initial configuration. -/
inductive Reach : Config → Prop where
  | init : Reach initConfig
  | next {c c1 : Config} (e : Event) : Reach c → step c e = some c1 → Reach c1

/-- Resend record as mutated by a redelivery that does not consult the backoff
(attempt count incremented only). -/
def incAttempts (m : asyncPreserverResend) : asyncPreserverResend :=
  { m with attempts := m.attempts + 1 }

/-- Resend record as mutated by a redelivery past the second attempt: attempt
count incremented and backoff state advanced by `NextBackOff`. -/
def advanceResend (m : asyncPreserverResend) : asyncPreserverResend :=
  { m with attempts := m.attempts + 1, boffCurrent := (nextBackOff m.boffCurrent).2 }

/-- Characterization of `ReadBatch` on a non-empty resend queue: the front entry
is popped and, depending on the attempt count, the backoff sleep and its
possible interruption, either redelivered or abandoned with `ctx.Err()`. -/
theorem readBatch_cons (p : AsyncPreserver) (env : ReadEnv)
    (m : asyncPreserverResend) (rest : List asyncPreserverResend)
    (h : p.resendMessages = m :: rest) :
    p.ReadBatch env =
      if 2 < m.attempts + 1 then
        if 0 < m.boffCurrent then
          if env.sleepInterrupted then
            some ({ p with resendMessages := rest }, ReadResult.failed Err.canceled)
          else
            some ({ p with resendMessages := rest },
              ReadResult.delivered m.boffCurrent
                (wrapAckMsg (advanceResend m)).shallowCopy (advanceResend m))
        else
          some ({ p with resendMessages := rest },
            ReadResult.delivered 0
              (wrapAckMsg (advanceResend m)).shallowCopy (advanceResend m))
      else
        some ({ p with resendMessages := rest },
          ReadResult.delivered 0
            (wrapAckMsg (incAttempts m)).shallowCopy (incAttempts m)) := by
  obtain ⟨rm, pm, ic⟩ := p
  simp only at h
  subst h
  rfl

/-- Characterization of `ReadBatch` on an empty queue with the source still
open: the source is consulted; a closed error with messages in flight enters
the drain loop, any other error is passed through, and a fresh batch is
counted, wrapped and delivered. -/
theorem readBatch_nil_open (p : AsyncPreserver) (env : ReadEnv)
    (hq : p.resendMessages = []) (hic : p.inputClosed = false) :
    p.ReadBatch env =
      match env.sourceResult with
      | Except.error e =>
        if e = Err.typeClosed ∧ 0 < p.pendingMessages then
          (drainLoop env.pollEvents).map (fun e2 => (p, ReadResult.failed e2))
        else
          some (p, ReadResult.failed e)
      | Except.ok ma =>
        some ({ p with pendingMessages := p.pendingMessages + 1 },
          ReadResult.delivered 0
            (wrapAckMsg (newResendMsg ma.1 ma.2)).shallowCopy
            (newResendMsg ma.1 ma.2)) := by
  obtain ⟨rm, pm, ic⟩ := p
  simp only at hq hic
  subst hq
  subst hic
  rfl

/-- Characterization of `ReadBatch` on an empty queue with `inputClosed` set:
the source is not consulted; a closed outcome is synthesized, entering the
drain loop when messages are still in flight. -/
theorem readBatch_nil_closed (p : AsyncPreserver) (env : ReadEnv)
    (hq : p.resendMessages = []) (hic : p.inputClosed = true) :
    p.ReadBatch env =
      if 0 < p.pendingMessages then
        (drainLoop env.pollEvents).map (fun e2 => (p, ReadResult.failed e2))
      else
        some (p, ReadResult.failed Err.typeClosed) := by
  obtain ⟨rm, pm, ic⟩ := p
  simp only at hq hic
  subst hq
  subst hic
  by_cases hp : 0 < pm
  · simp [AsyncPreserver.ReadBatch, hp]
  · simp [AsyncPreserver.ReadBatch, hp]

/-- Errored parts of a traversal, in walk order: the parts whose associated
error is not `none`. -/
def erroredParts (items : List (MsgPart × Option Err)) : List MsgPart :=
  items.filterMap (fun qe => if qe.2.isSome then some qe.1 else none)

/-- Every errored part of the traversal can be mapped back to an original index
by the tracking facility. -/
def allMapped (items : List (MsgPart × Option Err)) : Prop :=
  ∀ q ∈ erroredParts items, 0 ≤ getIndex q

instance (items : List (MsgPart × Option Err)) : Decidable (allMapped items) :=
  List.decidableBAll _ _

/-- Original parts selected by the errored parts of the traversal, in walk
order: the claim-side reading of "exactly those original parts". -/
def mappedOriginals (orig : Batch) (items : List (MsgPart × Option Err)) : Batch :=
  (erroredParts items).map (fun q => orig.getD (getIndex q).toNat defaultPart)

lemma erroredParts_cons_none (q : MsgPart) (rest : List (MsgPart × Option Err)) :
    erroredParts ((q, none) :: rest) = erroredParts rest := by
  simp [erroredParts]

lemma erroredParts_cons_some (q : MsgPart) (e : Err)
    (rest : List (MsgPart × Option Err)) :
    erroredParts ((q, some e) :: rest) = q :: erroredParts rest := by
  simp [erroredParts]

/-- When every errored part is mappable, the walk produces exactly the original
parts selected by the errored parts, appended to the accumulator. -/
lemma walkResend_allMapped (orig : Batch) (items : List (MsgPart × Option Err))
    (h : allMapped items) :
    ∀ acc, walkResend orig items acc = acc ++ mappedOriginals orig items := by
  induction items with
  | nil => intro acc; simp [walkResend, mappedOriginals, erroredParts]
  | cons qe rest ih =>
    obtain ⟨q, e⟩ := qe
    intro acc
    cases e with
    | none =>
      have hrest : allMapped rest := by
        intro q1 hq1
        apply h
        rw [erroredParts_cons_none]
        exact hq1
      simp only [walkResend]
      rw [ih hrest acc]
      simp [mappedOriginals, erroredParts_cons_none]
    | some e1 =>
      have hq : 0 ≤ getIndex q := by
        apply h
        rw [erroredParts_cons_some]
        exact List.mem_cons_self _ _
      have hrest : allMapped rest := by
        intro q1 hq1
        apply h
        rw [erroredParts_cons_some]
        exact List.mem_cons_of_mem _ hq1
      simp only [walkResend, if_pos hq]
      rw [ih hrest]
      simp [mappedOriginals, erroredParts_cons_some]

/-- When some errored part cannot be mapped back, the walk short-circuits with
the whole original batch, whatever the accumulator. -/
lemma walkResend_notMapped (orig : Batch) (items : List (MsgPart × Option Err))
    (h : ¬ allMapped items) :
    ∀ acc, walkResend orig items acc = orig := by
  induction items with
  | nil =>
    exact absurd (fun q hq => absurd hq (by simp [erroredParts])) h
  | cons qe rest ih =>
    obtain ⟨q, e⟩ := qe
    intro acc
    cases e with
    | none =>
      have hrest : ¬ allMapped rest := by
        intro hr
        apply h
        intro q1 hq1
        rw [erroredParts_cons_none] at hq1
        exact hr q1 hq1
      simp only [walkResend]
      exact ih hrest acc
    | some e1 =>
      by_cases hq : 0 ≤ getIndex q
      · have hrest : ¬ allMapped rest := by
          intro hr
          apply h
          intro q1 hq1
          rw [erroredParts_cons_some] at hq1
          rcases List.mem_cons.mp hq1 with h1 | h1
          · exact h1 ▸ hq
          · exact hr q1 h1
        simp only [walkResend, if_pos hq]
        exact ih hrest _
      · simp only [walkResend, if_neg hq]

/-- Claim C10: `Close` delegates directly to the wrapped source's `Close` and
returns its result unchanged; the retry queue, the in-flight counter and the
`inputClosed` flag are left unmodified. -/
theorem asyncPreserver_C10 (p : AsyncPreserver) (res : Option Err) :
    p.Close res = (p, res) ∧
    (p.Close res).1.resendMessages = p.resendMessages ∧
    (p.Close res).1.pendingMessages = p.pendingMessages ∧
    (p.Close res).1.inputClosed = p.inputClosed ∧
    (p.Close res).2 = res :=
  ⟨rfl, rfl, rfl, rfl, rfl⟩

/-- Claim C4: `Connect` suppresses the wrapped source's `ErrTypeClosed` (and
sets the `inputClosed` flag) exactly when messages are in flight; any other
error, and the closed error with zero in-flight batches, is returned
unchanged. -/
theorem asyncPreserver_C4 :
    (∀ p : AsyncPreserver, 0 < p.pendingMessages →
      p.Connect (some Err.typeClosed) = ({ p with inputClosed := true }, none)) ∧
    (∀ p : AsyncPreserver, p.pendingMessages = 0 →
      p.Connect (some Err.typeClosed) = (p, some Err.typeClosed)) ∧
    (∀ (p : AsyncPreserver) (e : Option Err), e ≠ some Err.typeClosed →
      p.Connect e = (p, e)) := by
  refine ⟨fun p hp => ?_, fun p hp => ?_, fun p e he => ?_⟩
  · simp [AsyncPreserver.Connect, hp]
  · simp [AsyncPreserver.Connect, hp]
  · simp [AsyncPreserver.Connect, he]

/-- Witness for C4 at concrete inputs: two in-flight batches suppress the
closed error and set the flag; zero in-flight or another error pass through. -/
theorem asyncPreserver_C4_witness :
    AsyncPreserver.Connect ⟨[], 2, false⟩ (some Err.typeClosed) =
      (⟨[], 2, true⟩, none) ∧
    AsyncPreserver.Connect ⟨[], 0, false⟩ (some Err.typeClosed) =
      (⟨[], 0, false⟩, some Err.typeClosed) ∧
    AsyncPreserver.Connect ⟨[], 0, false⟩ (some (Err.other 3)) =
      (⟨[], 0, false⟩, some (Err.other 3)) :=
  ⟨asyncPreserver_C4.1 ⟨[], 2, false⟩ (by decide),
   asyncPreserver_C4.2.1 ⟨[], 0, false⟩ rfl,
   asyncPreserver_C4.2.2 ⟨[], 0, false⟩ (some (Err.other 3)) (by decide)⟩

/-- Claim C2: invoking a wrapped callback (single- or multi-part) with a
failure appends a retry entry (same original callback, same attempt count and
backoff state) to the queue, returns `nil`, never invokes the original
callback, and leaves the in-flight counter alone; invoking it with success
decrements the counter by one, leaves the queue alone, invokes the original
callback once with the success result, and returns that callback's outcome. -/
theorem asyncPreserver_C2 :
    (∀ (p : AsyncPreserver) (m : asyncPreserverResend) (res : AckResult),
      res ≠ AckResult.ok →
      ∃ m1, (p.wrappedAck m res).state.resendMessages = p.resendMessages ++ [m1] ∧
        m1.ackFn = m.ackFn ∧ m1.attempts = m.attempts ∧
        m1.boffCurrent = m.boffCurrent ∧
        (p.wrappedAck m res).ret = none ∧
        (p.wrappedAck m res).origCalls = [] ∧
        (p.wrappedAck m res).state.pendingMessages = p.pendingMessages ∧
        (p.wrappedAck m res).state.inputClosed = p.inputClosed) ∧
    (∀ (p : AsyncPreserver) (m : asyncPreserverResend),
      (p.wrappedAck m AckResult.ok).state.pendingMessages = p.pendingMessages - 1 ∧
      (p.wrappedAck m AckResult.ok).state.resendMessages = p.resendMessages ∧
      (p.wrappedAck m AckResult.ok).state.inputClosed = p.inputClosed ∧
      (p.wrappedAck m AckResult.ok).ret = m.ackFn none ∧
      (p.wrappedAck m AckResult.ok).origCalls = [none]) := by
  constructor
  · intro p m res hres
    by_cases hlen : m.msg.length = 1
    · exact ⟨m, by
        simp [AsyncPreserver.wrappedAck, AsyncPreserver.wrappedSingleAck, hlen, hres]⟩
    · exact ⟨{ m with msg := batchAckResend m res }, by
        simp [AsyncPreserver.wrappedAck, AsyncPreserver.wrappedBatchAck, hlen, hres]⟩
  · intro p m
    by_cases hlen : m.msg.length = 1 <;>
      simp [AsyncPreserver.wrappedAck, AsyncPreserver.wrappedSingleAck,
        AsyncPreserver.wrappedBatchAck, hlen]

/-- Witness for C2 at concrete inputs: a failed single-part delivery is
absorbed into the queue, and a successful one decrements the counter and
forwards to the original callback. -/
theorem asyncPreserver_C2_witness :
    (∃ m1,
      (AsyncPreserver.wrappedAck ⟨[], 5, false⟩
          ⟨1, 0, [⟨7, none⟩], fun o => o⟩
          (AckResult.plainErr (Err.other 2))).state.resendMessages = [] ++ [m1] ∧
        m1.ackFn = (fun (o : Option Err) => o) ∧ m1.attempts = 0 ∧
        m1.boffCurrent = 1 ∧
        (AsyncPreserver.wrappedAck ⟨[], 5, false⟩
          ⟨1, 0, [⟨7, none⟩], fun o => o⟩
          (AckResult.plainErr (Err.other 2))).ret = none ∧
        (AsyncPreserver.wrappedAck ⟨[], 5, false⟩
          ⟨1, 0, [⟨7, none⟩], fun o => o⟩
          (AckResult.plainErr (Err.other 2))).origCalls = [] ∧
        (AsyncPreserver.wrappedAck ⟨[], 5, false⟩
          ⟨1, 0, [⟨7, none⟩], fun o => o⟩
          (AckResult.plainErr (Err.other 2))).state.pendingMessages = 5 ∧
        (AsyncPreserver.wrappedAck ⟨[], 5, false⟩
          ⟨1, 0, [⟨7, none⟩], fun o => o⟩
          (AckResult.plainErr (Err.other 2))).state.inputClosed = false) ∧
    ((AsyncPreserver.wrappedAck ⟨[], 5, false⟩
        ⟨1, 0, [⟨7, none⟩], fun o => o⟩ AckResult.ok).state.pendingMessages = 5 - 1 ∧
      (AsyncPreserver.wrappedAck ⟨[], 5, false⟩
        ⟨1, 0, [⟨7, none⟩], fun o => o⟩ AckResult.ok).state.resendMessages = [] ∧
      (AsyncPreserver.wrappedAck ⟨[], 5, false⟩
        ⟨1, 0, [⟨7, none⟩], fun o => o⟩ AckResult.ok).state.inputClosed = false ∧
      (AsyncPreserver.wrappedAck ⟨[], 5, false⟩
        ⟨1, 0, [⟨7, none⟩], fun o => o⟩ AckResult.ok).ret = (fun (o : Option Err) => o) none ∧
      (AsyncPreserver.wrappedAck ⟨[], 5, false⟩
        ⟨1, 0, [⟨7, none⟩], fun o => o⟩ AckResult.ok).origCalls = [none]) :=
  ⟨asyncPreserver_C2.1 ⟨[], 5, false⟩ ⟨1, 0, [⟨7, none⟩], fun o => o⟩
      (AckResult.plainErr (Err.other 2)) (by decide),
   asyncPreserver_C2.2 ⟨[], 5, false⟩ ⟨1, 0, [⟨7, none⟩], fun o => o⟩⟩

/-- Claim C1: for a multi-part delivered batch whose wrapped callback receives a
structured error with fewer part-level errors than the batch size, if every
errored part maps back to an original index the enqueued retry batch is exactly
the selected original parts; if some errored part cannot be mapped, or the
mapped subset is empty, the entire original batch is enqueued; a plain error,
or a structured error whose error count equals the batch size, always enqueues
the entire original batch. -/
theorem asyncPreserver_C1 :
    (∀ (p : AsyncPreserver) (m : asyncPreserverResend) (we : WalkableErr),
      1 < m.msg.length → we.indexedErrors < m.msg.length →
      allMapped we.parts → mappedOriginals m.msg we.parts ≠ [] →
      (p.wrappedAck m (AckResult.walkableErr we)).state.resendMessages =
        p.resendMessages ++ [{ m with msg := mappedOriginals m.msg we.parts }]) ∧
    (∀ (p : AsyncPreserver) (m : asyncPreserverResend) (we : WalkableErr),
      1 < m.msg.length → we.indexedErrors < m.msg.length →
      ¬ allMapped we.parts →
      (p.wrappedAck m (AckResult.walkableErr we)).state.resendMessages =
        p.resendMessages ++ [m]) ∧
    (∀ (p : AsyncPreserver) (m : asyncPreserverResend) (we : WalkableErr),
      1 < m.msg.length → we.indexedErrors < m.msg.length →
      allMapped we.parts → mappedOriginals m.msg we.parts = [] →
      (p.wrappedAck m (AckResult.walkableErr we)).state.resendMessages =
        p.resendMessages ++ [m]) ∧
    (∀ (p : AsyncPreserver) (m : asyncPreserverResend) (e : Err),
      1 < m.msg.length →
      (p.wrappedAck m (AckResult.plainErr e)).state.resendMessages =
        p.resendMessages ++ [m]) ∧
    (∀ (p : AsyncPreserver) (m : asyncPreserverResend) (we : WalkableErr),
      1 < m.msg.length → we.indexedErrors = m.msg.length →
      (p.wrappedAck m (AckResult.walkableErr we)).state.resendMessages =
        p.resendMessages ++ [m]) := by
  have hne : ∀ m : asyncPreserverResend, 1 < m.msg.length → ¬ m.msg.length = 1 := by
    intro m h
    omega
  refine ⟨?_, ?_, ?_, ?_, ?_⟩
  · intro p m we hlen hcnt hmap hnonempty
    simp only [AsyncPreserver.wrappedAck, if_neg (hne m hlen),
      AsyncPreserver.wrappedBatchAck, if_pos (by simp : AckResult.walkableErr we ≠ AckResult.ok)]
    simp only [batchAckResend, if_pos hcnt]
    rw [walkResend_allMapped m.msg we.parts hmap []]
    simp only [List.nil_append]
    rw [if_neg (by simpa using hnonempty)]
  · intro p m we hlen hcnt hmap
    simp only [AsyncPreserver.wrappedAck, if_neg (hne m hlen),
      AsyncPreserver.wrappedBatchAck,
      if_pos (by simp : AckResult.walkableErr we ≠ AckResult.ok)]
    simp only [batchAckResend, if_pos hcnt]
    rw [walkResend_notMapped m.msg we.parts hmap []]
    rw [if_neg (by omega : ¬ m.msg.length = 0)]
  · intro p m we hlen hcnt hmap hempty
    simp only [AsyncPreserver.wrappedAck, if_neg (hne m hlen),
      AsyncPreserver.wrappedBatchAck,
      if_pos (by simp : AckResult.walkableErr we ≠ AckResult.ok)]
    simp only [batchAckResend, if_pos hcnt]
    rw [walkResend_allMapped m.msg we.parts hmap [], List.nil_append, hempty]
    simp
  · intro p m e hlen
    simp only [AsyncPreserver.wrappedAck, if_neg (hne m hlen),
      AsyncPreserver.wrappedBatchAck,
      if_pos (by simp : AckResult.plainErr e ≠ AckResult.ok)]
    simp [batchAckResend]
  · intro p m we hlen hcnt
    simp only [AsyncPreserver.wrappedAck, if_neg (hne m hlen),
      AsyncPreserver.wrappedBatchAck,
      if_pos (by simp : AckResult.walkableErr we ≠ AckResult.ok)]
    simp only [batchAckResend, if_neg (by omega : ¬ we.indexedErrors < m.msg.length)]

/-- Witness for C1 at the spec's example: a 3-part batch whose structured error
reports only the part originally at index 1 as failed (all parts mappable)
enqueues a retry batch holding exactly the original part at index 1. -/
theorem asyncPreserver_C1_witness :
    (AsyncPreserver.wrappedAck ⟨[], 1, false⟩
        ⟨1, 0, [⟨10, none⟩, ⟨20, none⟩, ⟨30, none⟩], fun _ => none⟩
        (AckResult.walkableErr
          ⟨[(⟨10, some 0⟩, none), (⟨20, some 1⟩, some (Err.other 1)),
            (⟨30, some 2⟩, none)], 1⟩)).state.resendMessages =
      [] ++ [⟨1, 0, [⟨20, none⟩], fun _ => none⟩] ∧
    mappedOriginals [⟨10, none⟩, ⟨20, none⟩, ⟨30, none⟩]
      [(⟨10, some 0⟩, none), (⟨20, some 1⟩, some (Err.other 1)),
        (⟨30, some 2⟩, none)] = [⟨20, none⟩] :=
  ⟨asyncPreserver_C1.1 ⟨[], 1, false⟩
      ⟨1, 0, [⟨10, none⟩, ⟨20, none⟩, ⟨30, none⟩], fun _ => none⟩
      ⟨[(⟨10, some 0⟩, none), (⟨20, some 1⟩, some (Err.other 1)),
        (⟨30, some 2⟩, none)], 1⟩
      (by decide) (by decide) (by decide) (by decide),
   by decide⟩

/-- Claim C3: a `ReadBatch` request with a non-empty retry queue removes the
front entry without consulting the source (any source outcome gives the same
result); unless the caller's scope ends during the backoff sleep the front
entry is redelivered (same payload and callback, attempt count incremented);
the remaining entries keep their order, and failure enqueues append at the
back, so entries enqueued earlier are redelivered strictly before entries
enqueued later. -/
theorem asyncPreserver_C3 :
    (∀ (p : AsyncPreserver) (env : ReadEnv) (m : asyncPreserverResend)
        (rest : List asyncPreserverResend) (pr : AsyncPreserver × ReadResult),
      p.resendMessages = m :: rest → p.ReadBatch env = some pr →
      pr.1.resendMessages = rest ∧ pr.1.pendingMessages = p.pendingMessages ∧
      pr.1.inputClosed = p.inputClosed) ∧
    (∀ (p : AsyncPreserver) (env : ReadEnv) (m : asyncPreserverResend)
        (rest : List asyncPreserverResend) (sr : Except Err (Batch × AckFn)),
      p.resendMessages = m :: rest →
      p.ReadBatch { env with sourceResult := sr } = p.ReadBatch env) ∧
    (∀ (p : AsyncPreserver) (env : ReadEnv) (m : asyncPreserverResend)
        (rest : List asyncPreserverResend),
      p.resendMessages = m :: rest → env.sleepInterrupted = false →
      ∃ slept b m1,
        p.ReadBatch env = some ({ p with resendMessages := rest },
          ReadResult.delivered slept b m1) ∧
        m1.msg = m.msg ∧ m1.ackFn = m.ackFn ∧ m1.attempts = m.attempts + 1) ∧
    (∀ (p : AsyncPreserver) (m : asyncPreserverResend) (res : AckResult),
      res ≠ AckResult.ok →
      ∃ m1, (p.wrappedAck m res).state.resendMessages = p.resendMessages ++ [m1]) := by
  refine ⟨?_, ?_, ?_, ?_⟩
  · intro p env m rest pr h hpr
    rw [readBatch_cons p env m rest h] at hpr
    split_ifs at hpr <;>
      (simp only [Option.some.injEq] at hpr; subst hpr; exact ⟨rfl, rfl, rfl⟩)
  · intro p env m rest sr h
    rw [readBatch_cons p { env with sourceResult := sr } m rest h,
      readBatch_cons p env m rest h]
  · intro p env m rest h hsi
    rw [readBatch_cons p env m rest h, hsi]
    by_cases h1 : 2 < m.attempts + 1
    · rw [if_pos h1]
      by_cases h2 : 0 < m.boffCurrent
      · rw [if_pos h2]
        exact ⟨m.boffCurrent, (wrapAckMsg (advanceResend m)).shallowCopy,
          advanceResend m, by simp, rfl, rfl, rfl⟩
      · rw [if_neg h2]
        exact ⟨0, (wrapAckMsg (advanceResend m)).shallowCopy,
          advanceResend m, rfl, rfl, rfl, rfl⟩
    · rw [if_neg h1]
      exact ⟨0, (wrapAckMsg (incAttempts m)).shallowCopy,
        incAttempts m, rfl, rfl, rfl, rfl⟩
  · intro p m res hres
    by_cases hlen : m.msg.length = 1
    · exact ⟨m, by
        simp [AsyncPreserver.wrappedAck, AsyncPreserver.wrappedSingleAck, hlen, hres]⟩
    · exact ⟨{ m with msg := batchAckResend m res }, by
        simp [AsyncPreserver.wrappedAck, AsyncPreserver.wrappedBatchAck, hlen, hres]⟩

/-- Witness for C3 at a concrete input: with two queued entries, a read pops
the first (attempt count going to 1), leaves the second queued, and ignores
the source result. -/
theorem asyncPreserver_C3_witness :
    (∃ slept b m1,
      AsyncPreserver.ReadBatch
          ⟨[⟨1, 0, [⟨4, none⟩], fun _ => none⟩, ⟨1, 0, [⟨6, none⟩], fun _ => none⟩], 2, false⟩
          ⟨Except.error (Err.other 9), false, []⟩ =
        some (⟨[⟨1, 0, [⟨6, none⟩], fun _ => none⟩], 2, false⟩,
          ReadResult.delivered slept b m1) ∧
      m1.msg = [⟨4, none⟩] ∧ m1.ackFn = (fun (_ : Option Err) => (none : Option Err)) ∧
      m1.attempts = 0 + 1) ∧
    AsyncPreserver.ReadBatch
        ⟨[⟨1, 0, [⟨4, none⟩], fun _ => none⟩], 1, false⟩
        ⟨Except.ok ([⟨9, none⟩], fun _ => none), false, []⟩ =
      AsyncPreserver.ReadBatch
        ⟨[⟨1, 0, [⟨4, none⟩], fun _ => none⟩], 1, false⟩
        ⟨Except.error Err.typeClosed, false, []⟩ :=
  ⟨asyncPreserver_C3.2.2.1
      ⟨[⟨1, 0, [⟨4, none⟩], fun _ => none⟩, ⟨1, 0, [⟨6, none⟩], fun _ => none⟩], 2, false⟩
      ⟨Except.error (Err.other 9), false, []⟩
      ⟨1, 0, [⟨4, none⟩], fun _ => none⟩
      [⟨1, 0, [⟨6, none⟩], fun _ => none⟩] rfl rfl,
   asyncPreserver_C3.2.1
      ⟨[⟨1, 0, [⟨4, none⟩], fun _ => none⟩], 1, false⟩
      ⟨Except.error Err.typeClosed, false, []⟩
      ⟨1, 0, [⟨4, none⟩], fun _ => none⟩ []
      (Except.ok ([⟨9, none⟩], fun _ => none)) rfl⟩

lemma shallowCopy_eq (b : Batch) : b.shallowCopy = b := by
  simp [Batch.shallowCopy]

lemma tagFrom_length (b : Batch) : ∀ i, (tagFrom i b).length = b.length := by
  induction b with
  | nil => intro i; rfl
  | cons q qs ih => intro i; simp [tagFrom, ih]

lemma tagFrom_getD_content (b : Batch) :
    ∀ i k, ((tagFrom i b).getD k defaultPart).content =
      (b.getD k defaultPart).content := by
  induction b with
  | nil => intro i k; rfl
  | cons q qs ih =>
    intro i k
    cases k with
    | zero => rfl
    | succ k1 => simpa [tagFrom] using ih (i + 1) k1

lemma wrapAckMsg_length (m : asyncPreserverResend) :
    (wrapAckMsg m).length = m.msg.length := by
  by_cases hlen : m.msg.length = 1
  · simp [wrapAckMsg, hlen]
  · simp [wrapAckMsg, hlen, newSortGroup, tagFrom_length]

lemma wrapAckMsg_getD_content (m : asyncPreserverResend) (k : Nat) :
    ((wrapAckMsg m).getD k defaultPart).content =
      (m.msg.getD k defaultPart).content := by
  by_cases hlen : m.msg.length = 1
  · simp [wrapAckMsg, hlen]
  · rw [show wrapAckMsg m = newSortGroup m.msg by simp [wrapAckMsg, hlen]]
    exact tagFrom_getD_content m.msg 0 k

/-- Corollary of `readBatch_nil_open` with the source's error exposed. -/
lemma readBatch_nil_open_err (p : AsyncPreserver) (env : ReadEnv) (e : Err)
    (hq : p.resendMessages = []) (hic : p.inputClosed = false)
    (hsr : env.sourceResult = Except.error e) :
    p.ReadBatch env =
      if e = Err.typeClosed ∧ 0 < p.pendingMessages then
        (drainLoop env.pollEvents).map (fun e2 => (p, ReadResult.failed e2))
      else
        some (p, ReadResult.failed e) := by
  rw [readBatch_nil_open p env hq hic, hsr]

/-- Corollary of `readBatch_nil_open` with the source's fresh batch exposed. -/
lemma readBatch_nil_open_ok (p : AsyncPreserver) (env : ReadEnv)
    (ma : Batch × AckFn)
    (hq : p.resendMessages = []) (hic : p.inputClosed = false)
    (hsr : env.sourceResult = Except.ok ma) :
    p.ReadBatch env =
      some ({ p with pendingMessages := p.pendingMessages + 1 },
        ReadResult.delivered 0
          (wrapAckMsg (newResendMsg ma.1 ma.2)).shallowCopy
          (newResendMsg ma.1 ma.2)) := by
  rw [readBatch_nil_open p env hq hic, hsr]

/-- Every batch a `ReadBatch` call delivers is the shallow copy of the batch
produced by `wrapAckFn` for the captured resend record. -/
lemma readBatch_delivered_shape (p : AsyncPreserver) (env : ReadEnv)
    (p1 : AsyncPreserver) (slept : ℚ) (b : Batch) (m1 : asyncPreserverResend)
    (h : p.ReadBatch env = some (p1, ReadResult.delivered slept b m1)) :
    b = (wrapAckMsg m1).shallowCopy := by
  rcases hrm : p.resendMessages with _ | ⟨m, rest⟩
  · cases hic : p.inputClosed
    · rcases hsr : env.sourceResult with e | ma
      · rw [readBatch_nil_open_err p env e hrm hic hsr] at h
        split_ifs at h
        · rcases hd : drainLoop env.pollEvents with _ | e2 <;> rw [hd] at h <;> simp at h
        · simp at h
      · rw [readBatch_nil_open_ok p env ma hrm hic hsr] at h
        simp only [Option.some.injEq, Prod.mk.injEq, ReadResult.delivered.injEq] at h
        obtain ⟨h1, h2, h3, h4⟩ := h
        rw [← h3, ← h4]
    · rw [readBatch_nil_closed p env hrm hic] at h
      split_ifs at h
      · rcases hd : drainLoop env.pollEvents with _ | e2 <;> rw [hd] at h <;> simp at h
      · simp at h
  · rw [readBatch_cons p env m rest hrm] at h
    split_ifs at h
    · simp at h
    · simp only [Option.some.injEq, Prod.mk.injEq, ReadResult.delivered.injEq] at h
      obtain ⟨h1, h2, h3, h4⟩ := h
      rw [← h3, ← h4]
    · simp only [Option.some.injEq, Prod.mk.injEq, ReadResult.delivered.injEq] at h
      obtain ⟨h1, h2, h3, h4⟩ := h
      rw [← h3, ← h4]
    · simp only [Option.some.injEq, Prod.mk.injEq, ReadResult.delivered.injEq] at h
      obtain ⟨h1, h2, h3, h4⟩ := h
      rw [← h3, ← h4]

/-- Claim C8: a batch whose wrapped callback reports a total (plain) failure is
re-enqueued as the very same retry record, so its redelivered payload has part
content and count identical to the originally delivered batch; and every
delivery (fresh or retried) hands the caller a shallow structural copy of the
wrapped batch whose part count and contents agree with the retained original
payload, shallow copies being structural (parts shared, not duplicated). -/
theorem asyncPreserver_C8 :
    (∀ (p : AsyncPreserver) (m : asyncPreserverResend) (e : Err),
      (p.wrappedAck m (AckResult.plainErr e)).state.resendMessages =
        p.resendMessages ++ [m]) ∧
    (∀ (p : AsyncPreserver) (env : ReadEnv) (p1 : AsyncPreserver) (slept : ℚ)
        (b : Batch) (m1 : asyncPreserverResend),
      p.ReadBatch env = some (p1, ReadResult.delivered slept b m1) →
      b = (wrapAckMsg m1).shallowCopy ∧
      b.length = m1.msg.length ∧
      ∀ k, (b.getD k defaultPart).content = (m1.msg.getD k defaultPart).content) ∧
    (∀ b : Batch, b.shallowCopy = b) := by
  refine ⟨?_, ?_, shallowCopy_eq⟩
  · intro p m e
    by_cases hlen : m.msg.length = 1
    · simp [AsyncPreserver.wrappedAck, AsyncPreserver.wrappedSingleAck, hlen]
    · simp [AsyncPreserver.wrappedAck, AsyncPreserver.wrappedBatchAck, hlen, batchAckResend]
  · intro p env p1 slept b m1 h
    have hb := readBatch_delivered_shape p env p1 slept b m1 h
    subst hb
    rw [shallowCopy_eq]
    exact ⟨rfl, wrapAckMsg_length m1, fun k => wrapAckMsg_getD_content m1 k⟩

/-- Witness for C8 at a concrete input: a fresh two-part read delivers a batch
whose contents match the retained original, and a plain-error failure
re-enqueues that original unchanged. -/
theorem asyncPreserver_C8_witness :
    ((AsyncPreserver.wrappedAck ⟨[], 1, false⟩
        ⟨1, 0, [⟨4, none⟩, ⟨5, none⟩], fun _ => none⟩
        (AckResult.plainErr (Err.other 1))).state.resendMessages =
      [] ++ [⟨1, 0, [⟨4, none⟩, ⟨5, none⟩], fun _ => none⟩]) ∧
    ([⟨4, some 0⟩, ⟨5, some 1⟩] : Batch) = (wrapAckMsg
        ⟨1, 0, [⟨4, none⟩, ⟨5, none⟩], fun _ => none⟩).shallowCopy ∧
    ([⟨4, some 0⟩, ⟨5, some 1⟩] : Batch).length =
      (asyncPreserverResend.msg ⟨1, 0, [⟨4, none⟩, ⟨5, none⟩], fun _ => none⟩).length ∧
    ∀ k, (([⟨4, some 0⟩, ⟨5, some 1⟩] : Batch).getD k defaultPart).content =
      ((asyncPreserverResend.msg
        ⟨1, 0, [⟨4, none⟩, ⟨5, none⟩], fun _ => none⟩).getD k defaultPart).content :=
  ⟨asyncPreserver_C8.1 ⟨[], 1, false⟩ ⟨1, 0, [⟨4, none⟩, ⟨5, none⟩], fun _ => none⟩
      (Err.other 1),
   asyncPreserver_C8.2.1 ⟨[], 0, false⟩
      ⟨Except.ok ([⟨4, none⟩, ⟨5, none⟩], fun _ => none), false, []⟩
      ⟨[], 1, false⟩ 0 [⟨4, some 0⟩, ⟨5, some 1⟩]
      ⟨1, 0, [⟨4, none⟩, ⟨5, none⟩], fun _ => none⟩ rfl⟩

/-- With an empty queue and the source-closed condition observed, a read with a
non-positive in-flight counter returns the closed outcome immediately. -/
lemma readBatch_closed_now (p : AsyncPreserver) (env : ReadEnv)
    (hq : p.resendMessages = [])
    (hcl : p.inputClosed = true ∨ env.sourceResult = Except.error Err.typeClosed)
    (hpm : p.pendingMessages ≤ 0) :
    p.ReadBatch env = some (p, ReadResult.failed Err.typeClosed) := by
  cases hic : p.inputClosed
  · rcases hcl with hcl | hsr
    · rw [hic] at hcl
      cases hcl
    · rw [readBatch_nil_open_err p env Err.typeClosed hq hic hsr,
        if_neg (fun hc => absurd hc.2 (not_lt.mpr hpm))]
  · rw [readBatch_nil_closed p env hq hic, if_neg (not_lt.mpr hpm)]

/-- With an empty queue, the source-closed condition observed and a positive
in-flight counter, a read runs the drain poll loop. -/
lemma readBatch_drain (p : AsyncPreserver) (env : ReadEnv)
    (hq : p.resendMessages = [])
    (hcl : p.inputClosed = true ∨ env.sourceResult = Except.error Err.typeClosed)
    (hpm : 0 < p.pendingMessages) :
    p.ReadBatch env =
      (drainLoop env.pollEvents).map (fun e2 => (p, ReadResult.failed e2)) := by
  cases hic : p.inputClosed
  · rcases hcl with hcl | hsr
    · rw [hic] at hcl
      cases hcl
    · rw [readBatch_nil_open_err p env Err.typeClosed hq hic hsr, if_pos ⟨rfl, hpm⟩]
  · rw [readBatch_nil_closed p env hq hic, if_pos hpm]

/-- The drain loop returns the timeout outcome when the context's `Done`
channel fires after any run of ticks that all observed in-flight work. -/
lemma drainLoop_ticks_done (ns : List Int) (c : CancelCause) (evs : List PollEvent)
    (h : ∀ n ∈ ns, 0 < n) :
    drainLoop (ns.map PollEvent.tick ++ PollEvent.ctxDone c :: evs) =
      some Err.timeout := by
  induction ns with
  | nil => rfl
  | cons n ns ih =>
    simp only [List.map_cons, List.cons_append, drainLoop]
    rw [if_neg (not_le.mpr (h n (List.mem_cons_self _ _)))]
    exact ih (fun k hk => h k (List.mem_cons_of_mem _ hk))

/-- The drain loop returns the closed outcome at the first tick observing a
drained in-flight counter. -/
lemma drainLoop_ticks_closed (ns : List Int) (n : Int) (evs : List PollEvent)
    (h : ∀ k ∈ ns, 0 < k) (hn : n ≤ 0) :
    drainLoop (ns.map PollEvent.tick ++ PollEvent.tick n :: evs) =
      some Err.typeClosed := by
  induction ns with
  | nil => simp [drainLoop, hn]
  | cons k ns ih =>
    simp only [List.map_cons, List.cons_append, drainLoop]
    rw [if_neg (not_le.mpr (h k (List.mem_cons_self _ _)))]
    exact ih (fun k1 hk1 => h k1 (List.mem_cons_of_mem _ hk1))

/-- Claim C5: when a read observes the source-closed condition with an empty
retry queue, a non-positive in-flight counter yields the closed outcome
immediately; a positive one runs the poll loop at the 10 ms interval, yielding
the closed outcome once a tick observes the counter drained and the timeout
outcome — distinct from the cancellation outcome — if the caller's scope ends
first. -/
theorem asyncPreserver_C5 :
    (∀ (p : AsyncPreserver) (env : ReadEnv),
      p.resendMessages = [] →
      (p.inputClosed = true ∨ env.sourceResult = Except.error Err.typeClosed) →
      (p.pendingMessages = 0 →
        p.ReadBatch env = some (p, ReadResult.failed Err.typeClosed)) ∧
      (0 < p.pendingMessages →
        p.ReadBatch env =
          (drainLoop env.pollEvents).map (fun e2 => (p, ReadResult.failed e2)))) ∧
    pollIntervalMs = 10 ∧
    (∀ (ns : List Int) (c : CancelCause) (evs : List PollEvent),
      (∀ n ∈ ns, 0 < n) →
      drainLoop (ns.map PollEvent.tick ++ PollEvent.ctxDone c :: evs) =
        some Err.timeout) ∧
    (∀ (ns : List Int) (n : Int) (evs : List PollEvent),
      (∀ k ∈ ns, 0 < k) → n ≤ 0 →
      drainLoop (ns.map PollEvent.tick ++ PollEvent.tick n :: evs) =
        some Err.typeClosed) ∧
    Err.timeout ≠ Err.canceled := by
  refine ⟨?_, rfl, drainLoop_ticks_done, drainLoop_ticks_closed, by decide⟩
  intro p env hq hcl
  exact ⟨fun hpm => readBatch_closed_now p env hq hcl (le_of_eq hpm),
    fun hpm => readBatch_drain p env hq hcl hpm⟩

/-- Witness for C5 at concrete inputs: with the flag set and nothing in flight
the read closes immediately; with two in flight it polls, timing out on
cancellation after one busy tick, and closing when a tick sees the counter
drained. -/
theorem asyncPreserver_C5_witness :
    (AsyncPreserver.ReadBatch ⟨[], 0, true⟩
        ⟨Except.error (Err.other 0), false, []⟩ =
      some (⟨[], 0, true⟩, ReadResult.failed Err.typeClosed)) ∧
    (AsyncPreserver.ReadBatch ⟨[], 2, true⟩
        ⟨Except.error (Err.other 0), false,
          [PollEvent.tick 2, PollEvent.ctxDone CancelCause.callerCancelled]⟩ =
      (drainLoop [PollEvent.tick 2, PollEvent.ctxDone CancelCause.callerCancelled]).map
        (fun e2 => (⟨[], 2, true⟩, ReadResult.failed e2))) ∧
    drainLoop ([(2 : Int)].map PollEvent.tick ++
        PollEvent.ctxDone CancelCause.callerCancelled :: []) = some Err.timeout ∧
    drainLoop ([(2 : Int)].map PollEvent.tick ++ PollEvent.tick 0 :: []) =
      some Err.typeClosed :=
  ⟨(asyncPreserver_C5.1 ⟨[], 0, true⟩ ⟨Except.error (Err.other 0), false, []⟩
      rfl (Or.inl rfl)).1 rfl,
   (asyncPreserver_C5.1 ⟨[], 2, true⟩
      ⟨Except.error (Err.other 0), false,
        [PollEvent.tick 2, PollEvent.ctxDone CancelCause.callerCancelled]⟩
      rfl (Or.inl rfl)).2 (by decide),
   asyncPreserver_C5.2.2.1 [2] CancelCause.callerCancelled [] (by decide),
   asyncPreserver_C5.2.2.2.1 [2] 0 [] (by decide) (by decide)⟩

/-- Claim C9: while a read is blocked in the drain poll loop, a cancellation of
the derived scope produces the timeout outcome whatever its cause — the
caller's own cancellation or the interrupt handle fired by a concurrent
failure enqueue — never the generic cancellation outcome. -/
theorem asyncPreserver_C9 :
    ∀ (p : AsyncPreserver) (env : ReadEnv) (ns : List Int) (cause : CancelCause)
      (evs : List PollEvent),
      p.resendMessages = [] →
      (p.inputClosed = true ∨ env.sourceResult = Except.error Err.typeClosed) →
      0 < p.pendingMessages →
      env.pollEvents = ns.map PollEvent.tick ++ PollEvent.ctxDone cause :: evs →
      (∀ n ∈ ns, 0 < n) →
      p.ReadBatch env = some (p, ReadResult.failed Err.timeout) ∧
      Err.timeout ≠ Err.canceled := by
  intro p env ns cause evs hq hcl hpm hpe hns
  refine ⟨?_, by decide⟩
  rw [readBatch_drain p env hq hcl hpm, hpe, drainLoop_ticks_done ns cause evs hns]
  rfl

/-- Witness for C9 at a concrete input: the interrupt-fired cancellation of the
drain wait yields the timeout outcome. -/
theorem asyncPreserver_C9_witness :
    AsyncPreserver.ReadBatch ⟨[], 1, true⟩
        ⟨Except.error (Err.other 0), false,
          [PollEvent.tick 3, PollEvent.ctxDone CancelCause.interruptFired]⟩ =
      some (⟨[], 1, true⟩, ReadResult.failed Err.timeout) ∧
    Err.timeout ≠ Err.canceled :=
  asyncPreserver_C9 ⟨[], 1, true⟩
    ⟨Except.error (Err.other 0), false,
      [PollEvent.tick 3, PollEvent.ctxDone CancelCause.interruptFired]⟩
    [3] CancelCause.interruptFired [] rfl (Or.inl rfl) (by decide) rfl (by decide)

/-- Claim C7: a fresh retry entry starts with attempt count 0 and the 1 ms
initial interval; the first two redelivery attempts induce no delay; from the
third attempt onward the redelivery sleeps the current interval, after which
the interval grows by the factor 1.1 capped at the 1 s ceiling — so under the
interval invariant each induced delay is at least the prior one and at most the
ceiling; the elapsed-time cap is disabled so the policy never emits a stop; and
a sleep cut short by the scope ending yields the cancellation outcome. -/
theorem asyncPreserver_C7 :
    (∀ (b : Batch) (f : AckFn),
      (newResendMsg b f).attempts = 0 ∧
      (newResendMsg b f).boffCurrent = initialIntervalMs) ∧
    (initialIntervalMs = 1 ∧ maxIntervalMs = 1000 ∧
      backoffMultiplier = 11 / 10 ∧ maxElapsedTimeMs = 0) ∧
    (∀ cur : ℚ, (nextBackOff cur).1 = cur ∧
      (nextBackOff cur).2 = min (cur * backoffMultiplier) maxIntervalMs) ∧
    (∀ (p : AsyncPreserver) (env : ReadEnv) (m : asyncPreserverResend)
        (rest : List asyncPreserverResend),
      p.resendMessages = m :: rest → m.attempts + 1 ≤ 2 →
      p.ReadBatch env = some ({ p with resendMessages := rest },
        ReadResult.delivered 0
          (wrapAckMsg (incAttempts m)).shallowCopy (incAttempts m))) ∧
    (∀ (p : AsyncPreserver) (env : ReadEnv) (m : asyncPreserverResend)
        (rest : List asyncPreserverResend),
      p.resendMessages = m :: rest → 2 < m.attempts + 1 →
      0 < m.boffCurrent → env.sleepInterrupted = false →
      p.ReadBatch env = some ({ p with resendMessages := rest },
        ReadResult.delivered m.boffCurrent
          (wrapAckMsg (advanceResend m)).shallowCopy (advanceResend m))) ∧
    (∀ m : asyncPreserverResend,
      0 < m.boffCurrent → m.boffCurrent ≤ maxIntervalMs →
      m.boffCurrent ≤ (advanceResend m).boffCurrent ∧
      0 < (advanceResend m).boffCurrent ∧
      (advanceResend m).boffCurrent ≤ maxIntervalMs ∧
      (advanceResend m).boffCurrent = min (m.boffCurrent * backoffMultiplier) maxIntervalMs) ∧
    (∀ (p : AsyncPreserver) (env : ReadEnv) (m : asyncPreserverResend)
        (rest : List asyncPreserverResend),
      p.resendMessages = m :: rest → 2 < m.attempts + 1 →
      0 < m.boffCurrent → env.sleepInterrupted = true →
      p.ReadBatch env = some ({ p with resendMessages := rest },
        ReadResult.failed Err.canceled)) := by
  refine ⟨fun b f => ⟨rfl, rfl⟩, ⟨rfl, rfl, rfl, rfl⟩, fun cur => ⟨rfl, rfl⟩,
    ?_, ?_, ?_, ?_⟩
  · intro p env m rest h hm
    rw [readBatch_cons p env m rest h, if_neg (by omega : ¬ 2 < m.attempts + 1)]
  · intro p env m rest h hm hb hsi
    rw [readBatch_cons p env m rest h, if_pos hm, if_pos hb, hsi]
    rfl
  · intro m hb hmax
    have hmul : m.boffCurrent ≤ m.boffCurrent * backoffMultiplier := by
      have h1 : m.boffCurrent * 1 ≤ m.boffCurrent * backoffMultiplier := by
        apply mul_le_mul_of_nonneg_left _ (le_of_lt hb)
        rw [backoffMultiplier]
        norm_num
      rwa [mul_one] at h1
    refine ⟨le_min hmul hmax, lt_min ?_ ?_, min_le_right _ _, rfl⟩
    · exact lt_of_lt_of_le hb hmul
    · rw [maxIntervalMs]
      norm_num
  · intro p env m rest h hm hb hsi
    rw [readBatch_cons p env m rest h, if_pos hm, if_pos hb, hsi]
    rfl

/-- Witness for C7 at concrete inputs: the second attempt of an entry sleeps
nothing; the third attempt of an entry with a 1 ms interval sleeps 1 ms and
advances the interval to 1.1 ms; interruption during that sleep yields the
cancellation outcome. -/
theorem asyncPreserver_C7_witness :
    (AsyncPreserver.ReadBatch ⟨[⟨1, 1, [⟨3, none⟩], fun _ => none⟩], 1, false⟩
        ⟨Except.error (Err.other 0), false, []⟩ =
      some (⟨[], 1, false⟩,
        ReadResult.delivered 0
          (wrapAckMsg (incAttempts ⟨1, 1, [⟨3, none⟩], fun _ => none⟩)).shallowCopy
          (incAttempts ⟨1, 1, [⟨3, none⟩], fun _ => none⟩))) ∧
    (AsyncPreserver.ReadBatch ⟨[⟨1, 2, [⟨3, none⟩], fun _ => none⟩], 1, false⟩
        ⟨Except.error (Err.other 0), false, []⟩ =
      some (⟨[], 1, false⟩,
        ReadResult.delivered 1
          (wrapAckMsg (advanceResend ⟨1, 2, [⟨3, none⟩], fun _ => none⟩)).shallowCopy
          (advanceResend ⟨1, 2, [⟨3, none⟩], fun _ => none⟩))) ∧
    ((1 : ℚ) ≤ (advanceResend ⟨1, 2, [⟨3, none⟩], fun _ => none⟩).boffCurrent ∧
      0 < (advanceResend ⟨1, 2, [⟨3, none⟩], fun _ => none⟩).boffCurrent ∧
      (advanceResend ⟨1, 2, [⟨3, none⟩], fun _ => none⟩).boffCurrent ≤ maxIntervalMs ∧
      (advanceResend ⟨1, 2, [⟨3, none⟩], fun _ => none⟩).boffCurrent =
        min ((1 : ℚ) * backoffMultiplier) maxIntervalMs) ∧
    (AsyncPreserver.ReadBatch ⟨[⟨1, 2, [⟨3, none⟩], fun _ => none⟩], 1, false⟩
        ⟨Except.error (Err.other 0), true, []⟩ =
      some (⟨[], 1, false⟩, ReadResult.failed Err.canceled)) :=
  ⟨asyncPreserver_C7.2.2.2.1 ⟨[⟨1, 1, [⟨3, none⟩], fun _ => none⟩], 1, false⟩
      ⟨Except.error (Err.other 0), false, []⟩
      ⟨1, 1, [⟨3, none⟩], fun _ => none⟩ [] rfl (by decide),
   asyncPreserver_C7.2.2.2.2.1 ⟨[⟨1, 2, [⟨3, none⟩], fun _ => none⟩], 1, false⟩
      ⟨Except.error (Err.other 0), false, []⟩
      ⟨1, 2, [⟨3, none⟩], fun _ => none⟩ [] rfl (by decide) (by decide) rfl,
   asyncPreserver_C7.2.2.2.2.2.1 ⟨1, 2, [⟨3, none⟩], fun _ => none⟩
      (by decide) (by decide),
   asyncPreserver_C7.2.2.2.2.2.2 ⟨[⟨1, 2, [⟨3, none⟩], fun _ => none⟩], 1, false⟩
      ⟨Except.error (Err.other 0), true, []⟩
      ⟨1, 2, [⟨3, none⟩], fun _ => none⟩ [] rfl (by decide) (by decide) rfl⟩

lemma wrappedAck_fail_state (p : AsyncPreserver) (m : asyncPreserverResend)
    (res : AckResult) (hres : res ≠ AckResult.ok) :
    ∃ m1, (p.wrappedAck m res).state.resendMessages = p.resendMessages ++ [m1] ∧
      (p.wrappedAck m res).state.pendingMessages = p.pendingMessages := by
  by_cases hlen : m.msg.length = 1
  · exact ⟨m, by
      simp [AsyncPreserver.wrappedAck, AsyncPreserver.wrappedSingleAck, hlen, hres]⟩
  · exact ⟨{ m with msg := batchAckResend m res }, by
      simp [AsyncPreserver.wrappedAck, AsyncPreserver.wrappedBatchAck, hlen, hres]⟩

lemma wrappedAck_ok_state (p : AsyncPreserver) (m : asyncPreserverResend) :
    (p.wrappedAck m AckResult.ok).state.resendMessages = p.resendMessages ∧
    (p.wrappedAck m AckResult.ok).state.pendingMessages = p.pendingMessages - 1 := by
  by_cases hlen : m.msg.length = 1 <;>
    simp [AsyncPreserver.wrappedAck, AsyncPreserver.wrappedSingleAck,
      AsyncPreserver.wrappedBatchAck, hlen]

/-- Full outcome analysis of one `ReadBatch` call: a pop from the queue (with
the in-flight counter untouched), a pass-through error with the state
untouched, or a fresh counted delivery from the open source. -/
lemma readBatch_outcomes (p : AsyncPreserver) (env : ReadEnv)
    (p1 : AsyncPreserver) (r : ReadResult)
    (h : p.ReadBatch env = some (p1, r)) :
    (∃ m rest, p.resendMessages = m :: rest ∧ p1.resendMessages = rest ∧
      p1.pendingMessages = p.pendingMessages ∧
      ((∃ slept b m1, r = ReadResult.delivered slept b m1) ∨
        r = ReadResult.failed Err.canceled)) ∨
    (p.resendMessages = [] ∧ p1 = p ∧ ∃ e, r = ReadResult.failed e) ∨
    (p.resendMessages = [] ∧ p.inputClosed = false ∧
      (∃ ma, env.sourceResult = Except.ok ma) ∧
      p1.resendMessages = [] ∧
      p1.pendingMessages = p.pendingMessages + 1 ∧
      ∃ slept b m1, r = ReadResult.delivered slept b m1) := by
  rcases hrm : p.resendMessages with _ | ⟨m, rest⟩
  · cases hic : p.inputClosed
    · rcases hsr : env.sourceResult with e | ma
      · rw [readBatch_nil_open_err p env e hrm hic hsr] at h
        split_ifs at h
        · rcases hd : drainLoop env.pollEvents with _ | e2 <;> rw [hd] at h
          · simp at h
          · obtain ⟨h1, h2⟩ := Prod.mk.inj (Option.some.inj h)
            subst h1
            subst h2
            exact Or.inr (Or.inl ⟨rfl, rfl, e2, rfl⟩)
        · obtain ⟨h1, h2⟩ := Prod.mk.inj (Option.some.inj h)
          subst h1
          subst h2
          exact Or.inr (Or.inl ⟨rfl, rfl, e, rfl⟩)
      · rw [readBatch_nil_open_ok p env ma hrm hic hsr] at h
        obtain ⟨h1, h2⟩ := Prod.mk.inj (Option.some.inj h)
        subst h1
        subst h2
        exact Or.inr (Or.inr ⟨rfl, rfl, ⟨ma, rfl⟩, hrm, rfl,
          0, (wrapAckMsg (newResendMsg ma.1 ma.2)).shallowCopy,
          newResendMsg ma.1 ma.2, rfl⟩)
    · rw [readBatch_nil_closed p env hrm hic] at h
      split_ifs at h
      · rcases hd : drainLoop env.pollEvents with _ | e2 <;> rw [hd] at h
        · simp at h
        · obtain ⟨h1, h2⟩ := Prod.mk.inj (Option.some.inj h)
          subst h1
          subst h2
          exact Or.inr (Or.inl ⟨rfl, rfl, e2, rfl⟩)
      · obtain ⟨h1, h2⟩ := Prod.mk.inj (Option.some.inj h)
        subst h1
        subst h2
        exact Or.inr (Or.inl ⟨rfl, rfl, Err.typeClosed, rfl⟩)
  · rw [readBatch_cons p env m rest hrm] at h
    split_ifs at h <;>
      obtain ⟨h1, h2⟩ := Prod.mk.inj (Option.some.inj h) <;>
      subst h1 <;> subst h2
    · exact Or.inl ⟨m, rest, rfl, rfl, rfl, Or.inr rfl⟩
    · exact Or.inl ⟨m, rest, rfl, rfl, rfl,
        Or.inl ⟨m.boffCurrent, (wrapAckMsg (advanceResend m)).shallowCopy,
          advanceResend m, rfl⟩⟩
    · exact Or.inl ⟨m, rest, rfl, rfl, rfl,
        Or.inl ⟨0, (wrapAckMsg (advanceResend m)).shallowCopy,
          advanceResend m, rfl⟩⟩
    · exact Or.inl ⟨m, rest, rfl, rfl, rfl,
        Or.inl ⟨0, (wrapAckMsg (incAttempts m)).shallowCopy,
          incAttempts m, rfl⟩⟩

/-- Inductive invariant: the in-flight counter dominates the number of queued
retry entries plus the number of outstanding deliveries. -/
def PendingInv (c : Config) : Prop :=
  (c.state.resendMessages.length : Int) + c.outstanding.length ≤
    c.state.pendingMessages

lemma step_inv {c c1 : Config} {e : Event} (h : step c e = some c1)
    (hinv : PendingInv c) : PendingInv c1 := by
  cases e with
  | read env =>
    rcases hrb : c.state.ReadBatch env with _ | ⟨s1, r⟩
    · rw [step, hrb] at h
      cases h
    · rw [step, hrb] at h
      have hout := readBatch_outcomes c.state env s1 r hrb
      cases r with
      | delivered slept b m1 =>
        have h1 := Option.some.inj h
        subst h1
        unfold PendingInv at hinv ⊢
        rcases hout with ⟨m2, rest, hq, hq1, hpm, _⟩ | ⟨_, _, e1, habs⟩ |
            ⟨hq, _, _, hq1, hpm, _⟩
        · rw [hq] at hinv
          simp only [List.length_cons] at hinv
          simp only [hq1, hpm, List.length_append, List.length_cons,
            List.length_nil]
          omega
        · cases habs
        · rw [hq] at hinv
          simp only [List.length_nil] at hinv
          simp only [hq1, hpm, List.length_append, List.length_cons,
            List.length_nil]
          omega
      | failed e1 =>
        have h1 := Option.some.inj h
        subst h1
        unfold PendingInv at hinv ⊢
        rcases hout with ⟨m2, rest, hq, hq1, hpm, hres⟩ | ⟨_, hp1, _⟩ |
            ⟨_, _, _, _, _, sl, b1, m1, habs⟩
        · rw [hq] at hinv
          simp only [List.length_cons] at hinv
          simp only [hq1, hpm]
          omega
        · subst hp1
          exact hinv
        · cases habs
  | ack k res =>
    rcases hk : c.outstanding.get? k with _ | m
    · rw [step, hk] at h
      cases h
    · rw [step, hk] at h
      have h1 := Option.some.inj h
      subst h1
      have hklt : k < c.outstanding.length := List.get?_eq_some.mp hk |>.1
      have herase : (c.outstanding.eraseIdx k).length =
          c.outstanding.length - 1 := by
        rw [List.length_eraseIdx]
        simp [hklt]
      unfold PendingInv at hinv ⊢
      by_cases hres : res = AckResult.ok
      · subst hres
        obtain ⟨hq, hpm⟩ := wrappedAck_ok_state c.state m
        simp only [hq, hpm, herase]
        omega
      · obtain ⟨m1, hq, hpm⟩ := wrappedAck_fail_state c.state m res hres
        simp only [hq, hpm, herase, List.length_append, List.length_cons,
          List.length_nil]
        omega

lemma reach_inv (c : Config) (h : Reach c) : PendingInv c := by
  induction h with
  | init =>
    unfold PendingInv initConfig NewAsyncPreserver
    simp
  | next e hstep hinv ih => exact step_inv hinv ih

/-- Claim C6: at every reachable configuration the in-flight counter is at
least the number of queued retry entries; across any step, the counter
increases only by a fresh delivered read from the open source (by exactly one;
redelivery of a queued entry never increases it) and decreases only by a
wrapped callback reporting success (by exactly one). -/
theorem asyncPreserver_C6 :
    (∀ c : Config, Reach c →
      (c.state.resendMessages.length : Int) ≤ c.state.pendingMessages) ∧
    (∀ (c c1 : Config) (e : Event), step c e = some c1 →
      c.state.pendingMessages < c1.state.pendingMessages →
      c1.state.pendingMessages = c.state.pendingMessages + 1 ∧
      ∃ env ma, e = Event.read env ∧ c.state.resendMessages = [] ∧
        c.state.inputClosed = false ∧ env.sourceResult = Except.ok ma) ∧
    (∀ (c c1 : Config) (e : Event), step c e = some c1 →
      c1.state.pendingMessages < c.state.pendingMessages →
      c1.state.pendingMessages = c.state.pendingMessages - 1 ∧
      ∃ k, e = Event.ack k AckResult.ok) := by
  refine ⟨?_, ?_, ?_⟩
  · intro c hr
    have hinv := reach_inv c hr
    unfold PendingInv at hinv
    omega
  · intro c c1 e hstep hlt
    cases e with
    | read env =>
      rcases hrb : c.state.ReadBatch env with _ | ⟨s1, r⟩
      · rw [step, hrb] at hstep
        cases hstep
      · rw [step, hrb] at hstep
        have hout := readBatch_outcomes c.state env s1 r hrb
        cases r with
        | delivered slept b m1 =>
          have h1 := Option.some.inj hstep
          have hc1 : c1.state = s1 := by rw [← h1]
          rw [hc1] at hlt ⊢
          rcases hout with ⟨m2, rest, hq, hq1, hpm, _⟩ | ⟨_, _, e1, habs⟩ |
              ⟨hq, hic, ⟨ma, hsr⟩, hq1, hpm, _⟩
          · rw [hpm] at hlt
            exact absurd hlt (lt_irrefl _)
          · cases habs
          · exact ⟨hpm, env, ma, rfl, hq, hic, hsr⟩
        | failed e1 =>
          have h1 := Option.some.inj hstep
          have hc1 : c1.state = s1 := by rw [← h1]
          rw [hc1] at hlt
          rcases hout with ⟨m2, rest, hq, hq1, hpm, _⟩ | ⟨_, hp1, _⟩ |
              ⟨_, _, _, _, _, sl, b1, m1, habs⟩
          · rw [hpm] at hlt
            exact absurd hlt (lt_irrefl _)
          · rw [hp1] at hlt
            exact absurd hlt (lt_irrefl _)
          · cases habs
    | ack k res =>
      rcases hk : c.outstanding.get? k with _ | m
      · rw [step, hk] at hstep
        cases hstep
      · rw [step, hk] at hstep
        have h1 := Option.some.inj hstep
        have hc1 : c1.state = (c.state.wrappedAck m res).state := by rw [← h1]
        rw [hc1] at hlt
        by_cases hres : res = AckResult.ok
        · subst hres
          obtain ⟨_, hpm⟩ := wrappedAck_ok_state c.state m
          rw [hpm] at hlt
          omega
        · obtain ⟨m1, _, hpm⟩ := wrappedAck_fail_state c.state m res hres
          rw [hpm] at hlt
          exact absurd hlt (lt_irrefl _)
  · intro c c1 e hstep hlt
    cases e with
    | read env =>
      rcases hrb : c.state.ReadBatch env with _ | ⟨s1, r⟩
      · rw [step, hrb] at hstep
        cases hstep
      · rw [step, hrb] at hstep
        have hout := readBatch_outcomes c.state env s1 r hrb
        have hc1 : c1.state = s1 := by
          cases r with
          | delivered slept b m1 =>
            have h1 := Option.some.inj hstep
            rw [← h1]
          | failed e1 =>
            have h1 := Option.some.inj hstep
            rw [← h1]
        rw [hc1] at hlt
        rcases hout with ⟨m2, rest, hq, hq1, hpm, _⟩ | ⟨_, hp1, _⟩ |
            ⟨_, _, _, _, hpm, _⟩
        · rw [hpm] at hlt
          exact absurd hlt (lt_irrefl _)
        · rw [hp1] at hlt
          exact absurd hlt (lt_irrefl _)
        · rw [hpm] at hlt
          omega
    | ack k res =>
      rcases hk : c.outstanding.get? k with _ | m
      · rw [step, hk] at hstep
        cases hstep
      · rw [step, hk] at hstep
        have h1 := Option.some.inj hstep
        have hc1 : c1.state = (c.state.wrappedAck m res).state := by rw [← h1]
        rw [hc1] at hlt ⊢
        by_cases hres : res = AckResult.ok
        · subst hres
          obtain ⟨_, hpm⟩ := wrappedAck_ok_state c.state m
          exact ⟨hpm, k, rfl⟩
        · obtain ⟨m1, _, hpm⟩ := wrappedAck_fail_state c.state m res hres
          rw [hpm] at hlt
          exact absurd hlt (lt_irrefl _)

/-- Witness for C6 at concrete inputs: the initial configuration satisfies the
invariant; a fresh read of a one-part batch raises the counter from 0 to 1;
its successful acknowledgment lowers the counter from 1 back to 0. -/
theorem asyncPreserver_C6_witness :
    ((initConfig.state.resendMessages.length : Int) ≤
      initConfig.state.pendingMessages) ∧
    ((⟨⟨[], 1, false⟩, [⟨1, 0, [⟨2, none⟩], fun _ => none⟩]⟩ :
        Config).state.pendingMessages =
      initConfig.state.pendingMessages + 1 ∧
      ∃ env ma,
        Event.read ⟨Except.ok ([⟨2, none⟩], fun _ => none), false, []⟩ =
          Event.read env ∧
        initConfig.state.resendMessages = [] ∧
        initConfig.state.inputClosed = false ∧
        env.sourceResult = Except.ok ma) ∧
    ((⟨⟨[], 0, false⟩, []⟩ : Config).state.pendingMessages =
      (⟨⟨[], 1, false⟩, [⟨1, 0, [⟨2, none⟩], fun _ => none⟩]⟩ :
        Config).state.pendingMessages - 1 ∧
      ∃ k, Event.ack 0 AckResult.ok = Event.ack k AckResult.ok) :=
  ⟨asyncPreserver_C6.1 initConfig Reach.init,
   asyncPreserver_C6.2.1 initConfig
     ⟨⟨[], 1, false⟩, [⟨1, 0, [⟨2, none⟩], fun _ => none⟩]⟩
     (Event.read ⟨Except.ok ([⟨2, none⟩], fun _ => none), false, []⟩)
     rfl (by decide),
   asyncPreserver_C6.2.2 ⟨⟨[], 1, false⟩, [⟨1, 0, [⟨2, none⟩], fun _ => none⟩]⟩
     ⟨⟨[], 0, false⟩, []⟩ (Event.ack 0 AckResult.ok) rfl (by decide)⟩
